import Mathlib

/-!
Shallow embedding of the tabular profiling and simulated-cleaning engine of
the Power-BI-AI-Guru repository.

The embedding covers:
* the CSV branch of `parseFile` and the helper `isNumeric`
  (DataProfiling page, `src/unnamed/part_003`);
* the per-column profiling performed inside `runProfiling` (same file);
* the issue construction of `fetchSuggestionsForFile`, the staged-selection
  map `handleActionSelect`, and the apply step `handleApplyChanges`
  (`src/components/pages/DataCleaning.tsx`);
* the data model of `src/unnamed/part_000` (types.ts).

JavaScript numbers are modelled by `Nat`: every quantity involved
(row counts, missing counts) is a non-negative integer in the source, and
the source's explicit floors at zero (`if (x < 0) x = 0`) coincide with
truncated `Nat` subtraction.  `Math.round` of a non-negative rational
`a / b` is modelled exactly by `(2 * a + b) / (2 * b)` in `Nat` division;
the degenerate JavaScript float behaviour when the divisor is `0`
(`Infinity` / `NaN`) is outside the embedding and excluded by an explicit
`0 < rowCount` hypothesis where it could arise.
-/

/-- The `dataType` field of `ColumnProfile` in types.ts:
`'string' | 'number' | 'boolean' | 'mixed' | 'unknown'`. -/
inductive DataType
  | string
  | number
  | boolean
  | mixed
  | unknown
  deriving DecidableEq

/-- Model of `ColumnProfile` from types.ts.  `nonNumericCount?: number` becomes
`Option Nat` (absent = `none`). -/
structure ColumnProfile where
  name : String
  dataType : DataType
  missingValues : Nat
  uniqueValues : Nat
  nonNumericCount : Option Nat
  deriving DecidableEq

/-- Model of `FileProfile` from types.ts (the `aiInsights` decoration of
`FullProfileResult` plays no role in the claims and is omitted). -/
structure FileProfile where
  rowCount : Nat
  columnCount : Nat
  columns : List ColumnProfile
  deriving DecidableEq

/-- The whitespace set of JavaScript `String.prototype.trim`
(WhiteSpace plus LineTerminator code points). -/
def isJsWhitespace (c : Char) : Bool :=
  c = ' ' || c = '\t' || c = '\n' || c = '\r' ||
  c.val = 11 || c.val = 12 || c.val = 0xa0 || c.val = 0x1680 ||
  (0x2000 ≤ c.val && c.val ≤ 0x200a) || c.val = 0x2028 || c.val = 0x2029 ||
  c.val = 0x202f || c.val = 0x205f || c.val = 0x3000 || c.val = 0xfeff

/-- JavaScript `s.trim()`. -/
def jsTrim (s : String) : String :=
  String.mk (((s.data.dropWhile isJsWhitespace).reverse.dropWhile isJsWhitespace).reverse)

/-- JavaScript regex `\d`, i.e. exactly the ASCII digits. -/
def isDigitChar (c : Char) : Bool := '0' ≤ c && c ≤ '9'

/-- The body of the anchored regex `\d*\.?\d+`: all characters are digits
except at most one dot, the dot is not last, and at least one digit follows
it (equivalently: either a non-empty digit run, or digits, one `'.'`, then a
non-empty digit run). -/
def numBody (l : List Char) : Bool :=
  let pre := l.takeWhile (fun c => decide (c ≠ '.'))
  match l.drop pre.length with
  | [] => pre.all isDigitChar && decide (pre ≠ [])
  | _ :: post => pre.all isDigitChar && post.all isDigitChar && decide (post ≠ [])

/-- Model of `isNumeric` from the DataProfiling page:
`str.trim() !== '' && /^-?\d*\.?\d+$/.test(str.trim())`. -/
def isNumeric (s : String) : Bool :=
  let t := (jsTrim s).data
  if t = [] then false
  else numBody (if t.head? = some '-' then t.tail else t)

/-- JavaScript `str.split(sep)` for a single-character separator:
`""` yields `[""]`, and trailing separators yield trailing empty fields. -/
def splitOnChar (sep : Char) : List Char → List (List Char)
  | [] => [[]]
  | c :: rest =>
    match splitOnChar sep rest with
    | [] => [[]]
    | g :: gs => if c = sep then [] :: g :: gs else (c :: g) :: gs

/-- Split a string on a separator character, as JavaScript `split` does. -/
def splitLine (sep : Char) (s : String) : List String :=
  (splitOnChar sep s.data).map String.mk

/-- The cell transform of the CSV branch of `parseFile`:
`cell.trim().replace(/"/g, '')` — trim, then delete EVERY double-quote
character (the `g` flag makes the replacement global, not just surrounding
quotes). -/
def cleanCell (s : String) : String :=
  String.mk ((jsTrim s).data.filter (fun ch => decide (ch ≠ '"')))

/-- The `{ header, rows }` result of `parseFile`. -/
structure CsvGrid where
  header : List String
  rows : List (List String)
  deriving DecidableEq

/-- The CSV branch of `parseFile`: split the content on `'\n'`, drop lines
blank after trimming, take the first remaining line as header, split every
line on `','`, and apply `cleanCell` to each cell. -/
def parseCsv (content : String) : CsvGrid :=
  let lines := (splitLine '\n' content).filter (fun l => decide (jsTrim l ≠ ""))
  match lines with
  | [] => ⟨[], []⟩
  | h :: t =>
    ⟨(splitLine ',' h).map cleanCell,
     t.map (fun l => (splitLine ',' l).map cleanCell)⟩

/-- The normalization step of `runProfiling`: every raw row is re-shaped to
the header's length, `null`/`undefined` cells (and cells beyond the raw
row's length) become `""`, everything else is already a string here
(`String(cell)` in the source). -/
def normalizeRows (header : List String) (rawRows : List (List (Option String))) :
    List (List String) :=
  rawRows.map (fun row =>
    (List.range header.length).map (fun i =>
      match row.getD i none with
      | none => ""
      | some v => v))

/-- The `columnValues` array for column `i`: `rows.map(row => row[colIndex])`. -/
def columnValuesAt (rows : List (List String)) (i : Nat) : List String :=
  rows.map (fun r => r.getD i "")

/-- The missing-value test of `runProfiling` on the normalized (all-string)
grid: `val === null || val === undefined || val.trim() === ''`, where the
null/undefined disjuncts are vacuous after normalization. -/
def isMissing (v : String) : Bool := decide (jsTrim v = "")

/-- The per-column statistics block inside `runProfiling`:
missing count, distinct count of the (raw, untrimmed) non-missing values,
and the type-inference branch over numeric vs non-numeric non-missing
values, with `nonNumericCount` attached only in the `mixed` branch. -/
def profileColumn (name : String) (values : List String) : ColumnProfile :=
  let missingValues := values.countP isMissing
  let nonNull := values.filter (fun v => !(isMissing v))
  let uniqueValues := nonNull.dedup.length
  let numericCount := nonNull.countP isNumeric
  let nonNumeric := nonNull.countP (fun v => !(isNumeric v))
  if nonNull = [] then ⟨name, .unknown, missingValues, uniqueValues, none⟩
  else if 0 < numericCount ∧ 0 < nonNumeric then
    ⟨name, .mixed, missingValues, uniqueValues, some nonNumeric⟩
  else if 0 < numericCount then ⟨name, .number, missingValues, uniqueValues, none⟩
  else ⟨name, .string, missingValues, uniqueValues, none⟩

/-- The profile-construction part of `runProfiling`: normalize the parsed
rows, profile each header column, and assemble the `FileProfile`. -/
def runProfiling (header : List String) (rawRows : List (List (Option String))) :
    FileProfile :=
  let rows := normalizeRows header rawRows
  { rowCount := rows.length
    columnCount := header.length
    columns := header.enum.map (fun p => profileColumn p.2 (columnValuesAt rows p.1)) }

/-- Model of `CleaningActionType` from types.ts. -/
inductive CleaningActionType
  | REMOVE_ROWS
  | FILL_MEAN
  | FILL_MEDIAN
  | FILL_MODE
  | FILL_CUSTOM
  | CHANGE_TYPE
  | TRIM_WHITESPACE
  deriving DecidableEq

/-- The `targetType` parameter: `'string' | 'number'`. -/
inductive TargetType
  | string
  | number
  deriving DecidableEq

/-- Assigning a `targetType` string to the `dataType` field. -/
def TargetType.toDataType : TargetType → DataType
  | .string => .string
  | .number => .number

/-- Model of `CleaningSuggestion.parameters` from types.ts. -/
structure CleaningParameters where
  value : Option String
  targetType : Option TargetType
  deriving DecidableEq

/-- Model of `CleaningSuggestion` from types.ts. -/
structure CleaningSuggestion where
  action : CleaningActionType
  description : String
  parameters : Option CleaningParameters
  deriving DecidableEq

/-- Model of `AppliedAction` from types.ts. -/
structure AppliedAction where
  file : String
  column : String
  suggestion : CleaningSuggestion
  deriving DecidableEq

/-- The per-column `switch (action.suggestion.action)` inside
`handleApplyChanges`.  Note that `CHANGE_TYPE` resets `nonNumericCount`
(to `0`, not to absent) only in the `targetType === 'number'` branch and
only when the old count is truthy; a change to `'string'` leaves
`nonNumericCount` untouched. -/
def applyActionToColumn (c : ColumnProfile) (s : CleaningSuggestion) : ColumnProfile :=
  match s.action with
  | .REMOVE_ROWS => { c with missingValues := 0 }
  | .FILL_MEAN | .FILL_MEDIAN | .FILL_MODE | .FILL_CUSTOM =>
      { c with missingValues := 0, uniqueValues := c.uniqueValues + 1 }
  | .CHANGE_TYPE =>
      match s.parameters with
      | some ps =>
        match ps.targetType with
        | some tt =>
          let c1 := { c with dataType := tt.toDataType }
          if tt = .number then
            match c.nonNumericCount with
            | some n =>
              if 0 < n then
                { c1 with missingValues := c1.missingValues + n, nonNumericCount := some 0 }
              else c1
            | none => c1
          else c1
        | none => c
      | none => c
  | _ => c

/-- The lookup `fileProfile.columns.find(c => c.name === action.column)`. -/
def findColumn (cols : List ColumnProfile) (nm : String) : Option ColumnProfile :=
  cols.find? (fun c => decide (c.name = nm))

/-- In-place mutation of the column found by name: the first column whose
name matches is replaced by its image under `f`. -/
def updateColumn : List ColumnProfile → String → (ColumnProfile → ColumnProfile) →
    List ColumnProfile
  | [], _, _ => []
  | c :: rest, nm, f =>
    if c.name = nm then f c :: rest else c :: updateColumn rest nm f

/-- One iteration of the `actions.forEach` loop of `handleApplyChanges`:
a missing column silently skips the action; otherwise the column is
mutated by the per-column switch, and a `REMOVE_ROWS` action raises the
running `maxRowsToRemove` to the column's pre-action `missingValues`. -/
def applyOneAction (st : List ColumnProfile × Nat) (a : AppliedAction) :
    List ColumnProfile × Nat :=
  match findColumn st.1 a.column with
  | none => st
  | some c =>
    (updateColumn st.1 a.column (fun c0 => applyActionToColumn c0 a.suggestion),
     if a.suggestion.action = .REMOVE_ROWS then max st.2 c.missingValues else st.2)

/-- Model of `Math.round(a / b)` for non-negative integers, exact rational rounding
(half rounds up, as `Math.round` does for non-negative arguments).
JavaScript evaluates the quotient in binary floating point; the two agree
whenever the intermediate double is faithful, and the divisor-zero float
behaviour (`NaN`/`Infinity`) is excluded by hypotheses where relevant. -/
def jsRound (a b : Nat) : Nat := (2 * a + b) / (2 * b)

/-- The test `actions.some(a => a.column === col.name && a.suggestion.action ===
CleaningActionType.REMOVE_ROWS)`. -/
def isRemoveRowsFor (nm : String) (a : AppliedAction) : Bool :=
  decide (a.column = nm) && decide (a.suggestion.action = CleaningActionType.REMOVE_ROWS)

/-- The per-file body of `handleApplyChanges`: run every action through the
per-column switch while accumulating `maxRowsToRemove`, then, if any rows
are to be removed, lower `rowCount` (floored at 0 by `Nat` subtraction) and
shrink every non-`REMOVE_ROWS` column's `missingValues` by
`Math.round(missingValues * maxRowsToRemove / originalRowCount)`,
floored at 0. -/
def applyFileActions (p : FileProfile) (actions : List AppliedAction) : FileProfile :=
  let st := actions.foldl applyOneAction (p.columns, 0)
  if 0 < st.2 then
    { p with
      rowCount := p.rowCount - st.2
      columns := st.1.map (fun col =>
        if actions.any (isRemoveRowsFor col.name) then col
        else { col with
          missingValues := col.missingValues - jsRound (col.missingValues * st.2) p.rowCount }) }
  else
    { p with columns := st.1 }

/-- The whole `handleApplyChanges` over the profile map (a JavaScript
object, modelled as an ordered association list): a fresh map is built in
which each file's profile is the result of applying exactly the selections
staged for that file, in staging order; files without selections keep their
profile, and selections naming a file absent from the map touch nothing. -/
def applyChanges (profiles : List (String × FileProfile)) (sels : List AppliedAction) :
    List (String × FileProfile) :=
  profiles.map (fun e => (e.1, applyFileActions e.2 (sels.filter (fun a => decide (a.file = e.1)))))

/-- Lookup in the profile map. -/
def lookupProfile (profiles : List (String × FileProfile)) (fn : String) :
    Option FileProfile :=
  (profiles.find? (fun e => decide (e.1 = fn))).map (fun e => e.2)

/-- The key under which `handleActionSelect` stores a selection:
the template literal `` `${file}-${column}` `` (written here without the
backticks: `file ++ "-" ++ column`). -/
def selKey (f c : String) : String := f ++ "-" ++ c

/-- JavaScript object spread `{...prev, [key]: v}`: an existing key keeps
its position and receives the new value, a new key is appended. -/
def upsertSelection (m : List (String × AppliedAction)) (k : String) (v : AppliedAction) :
    List (String × AppliedAction) :=
  if m.any (fun e => decide (e.1 = k)) then
    m.map (fun e => if e.1 = k then (k, v) else e)
  else m ++ [(k, v)]

/-- Model of `handleActionSelect`: store the selection under `selKey file column`. -/
def handleActionSelect (m : List (String × AppliedAction)) (f c : String)
    (s : CleaningSuggestion) : List (String × AppliedAction) :=
  upsertSelection m (selKey f c) ⟨f, c, s⟩

/-- The selection currently staged for a (file, column) pair: lookup by the
composite key. -/
def getSelection (m : List (String × AppliedAction)) (f c : String) :
    Option AppliedAction :=
  (m.find? (fun e => decide (e.1 = selKey f c))).map (fun e => e.2)

/-- The `issueType` field of `ColumnIssue`. -/
inductive IssueType
  | missing_values
  | mixed_type
  deriving DecidableEq

/-- Model of `ColumnIssue` from types.ts; the optional `details` members become
`Option Nat`. -/
structure ColumnIssue where
  fileName : String
  columnName : String
  issueType : IssueType
  missingCount : Option Nat
  nonNumericCount : Option Nat
  totalRows : Nat
  deriving DecidableEq

/-- The guard `col.nonNumericCount && col.nonNumericCount > 0`
(truthiness: an absent or zero count fails). -/
def hasPosNNC (c : ColumnProfile) : Bool :=
  match c.nonNumericCount with
  | some n => decide (0 < n)
  | none => false

/-- The two pushes of the `profile.columns.forEach` loop inside
`fetchSuggestionsForFile`: a `missing_values` issue when
`missingValues > 0`, then a `mixed_type` issue when `dataType === 'mixed'`
and `nonNumericCount` is a positive number. -/
def columnIssues (fn : String) (rc : Nat) (c : ColumnProfile) : List ColumnIssue :=
  (if 0 < c.missingValues then
    [⟨fn, c.name, .missing_values, some c.missingValues, none, rc⟩] else [])
  ++ (if c.dataType = .mixed ∧ hasPosNNC c then
    [⟨fn, c.name, .mixed_type, none, c.nonNumericCount, rc⟩] else [])

/-- The `issuesToFetch` list built by `fetchSuggestionsForFile` for one
file profile. -/
def fetchIssuesForFile (fn : String) (p : FileProfile) : List ColumnIssue :=
  p.columns.flatMap (columnIssues fn p.rowCount)

/-! ## Helper lemmas -/

theorem countP_add_countP_not {α : Type} (p : α → Bool) (l : List α) :
    l.countP p + l.countP (fun x => !(p x)) = l.length := by
  induction l with
  | nil => rfl
  | cons a t ih =>
    simp only [List.countP_cons, List.length_cons]
    cases h : p a <;> simp only [h, Bool.not_true, Bool.not_false] <;> simp <;> omega

theorem profileColumn_missingValues (name : String) (values : List String) :
    (profileColumn name values).missingValues = values.countP isMissing := by
  unfold profileColumn
  dsimp only
  repeat first | rfl | split

/-! ## C3 -/

/-- C3: for every parsed grid and every column, the profiler's
`missingValues` plus the number of non-missing values of that column equals
the `rowCount` of the owning file profile (the number of data rows), where
a value is missing iff it is null/undefined or empty after trimming. -/
theorem c3_count_invariant (header : List String)
    (rawRows : List (List (Option String))) (i : Nat) (h : i < header.length) :
    ∃ hc : i < (runProfiling header rawRows).columns.length,
      ((runProfiling header rawRows).columns.get ⟨i, hc⟩).missingValues
        + (columnValuesAt (normalizeRows header rawRows) i).countP (fun v => !(isMissing v))
        = (runProfiling header rawRows).rowCount := by
  have hlen : (runProfiling header rawRows).columns.length = header.length := by
    simp [runProfiling, List.enum_length]
  refine ⟨by omega, ?_⟩
  have hget : (runProfiling header rawRows).columns.get ⟨i, by omega⟩
      = profileColumn header[i] (columnValuesAt (normalizeRows header rawRows) i) := by
    simp [runProfiling, List.getElem_map, List.getElem_enum]
  rw [hget, profileColumn_missingValues]
  have hrc : (runProfiling header rawRows).rowCount
      = (columnValuesAt (normalizeRows header rawRows) i).length := by
    simp [runProfiling, columnValuesAt]
  rw [hrc]
  exact countP_add_countP_not _ _

/-- Witness for C3 at a concrete grid: one column, rows ["x"] and [null]. -/
theorem c3_count_invariant_witness :
    ∃ hc : 0 < (runProfiling ["a"] [[some "x"], [none]]).columns.length,
      ((runProfiling ["a"] [[some "x"], [none]]).columns.get ⟨0, hc⟩).missingValues
        + (columnValuesAt (normalizeRows ["a"] [[some "x"], [none]]) 0).countP
            (fun v => !(isMissing v))
        = (runProfiling ["a"] [[some "x"], [none]]).rowCount :=
  c3_count_invariant ["a"] [[some "x"], [none]] 0 (by decide)

/-! ## C4 -/

/-- The `nonNullValues` list in the source: the non-missing values of a column. -/
def nonMissingOf (values : List String) : List String :=
  values.filter (fun v => !(isMissing v))

/-- C4: the profiler's type inference is the exhaustive case analysis over
non-missing values — no non-missing values gives `unknown`; all numeric
gives `number`; all non-numeric gives `string`; otherwise `mixed` with
`nonNumericCount` the number of non-numeric non-missing values, and
`nonNumericCount` is populated only in the `mixed` case.  The numeric test
`isNumeric` is the source's anchored regex over the trimmed value
(optionally-negative integer-or-decimal, no exponent, no `+`). -/
theorem c4_type_inference (name : String) (values : List String) :
    (nonMissingOf values = [] →
      (profileColumn name values).dataType = DataType.unknown ∧
      (profileColumn name values).nonNumericCount = none) ∧
    (nonMissingOf values ≠ [] → (∀ v ∈ nonMissingOf values, isNumeric v = true) →
      (profileColumn name values).dataType = DataType.number ∧
      (profileColumn name values).nonNumericCount = none) ∧
    (nonMissingOf values ≠ [] → (∀ v ∈ nonMissingOf values, isNumeric v = false) →
      (profileColumn name values).dataType = DataType.string ∧
      (profileColumn name values).nonNumericCount = none) ∧
    ((∃ v ∈ nonMissingOf values, isNumeric v = true) →
      (∃ v ∈ nonMissingOf values, isNumeric v = false) →
      (profileColumn name values).dataType = DataType.mixed ∧
      (profileColumn name values).nonNumericCount =
        some ((nonMissingOf values).countP (fun v => !(isNumeric v)))) := by
  refine ⟨fun h => ?_, fun h1 h2 => ?_, fun h1 h2 => ?_, fun h1 h2 => ?_⟩
  · simp only [nonMissingOf] at h
    unfold profileColumn
    dsimp only
    rw [if_pos h]
    exact ⟨rfl, rfl⟩
  · have hz : List.countP (fun v => !(isNumeric v))
        (values.filter (fun v => !(isMissing v))) = 0 := by
      rw [List.countP_eq_zero]
      intro a ha
      have := h2 a (by simpa [nonMissingOf] using ha)
      simp [this]
    have hful : List.countP isNumeric (values.filter (fun v => !(isMissing v)))
        = (values.filter (fun v => !(isMissing v))).length := by
      rw [List.countP_eq_length]
      intro a ha
      exact h2 a (by simpa [nonMissingOf] using ha)
    simp only [nonMissingOf] at h1
    unfold profileColumn
    dsimp only
    rw [if_neg h1, if_neg (by rw [hz]; omega),
      if_pos (by rw [hful]; exact List.length_pos.mpr h1)]
    exact ⟨rfl, rfl⟩
  · have hz : List.countP isNumeric (values.filter (fun v => !(isMissing v))) = 0 := by
      rw [List.countP_eq_zero]
      intro a ha
      have := h2 a (by simpa [nonMissingOf] using ha)
      simp [this]
    simp only [nonMissingOf] at h1
    unfold profileColumn
    dsimp only
    rw [if_neg h1, if_neg (by rw [hz]; omega), if_neg (by rw [hz]; omega)]
    exact ⟨rfl, rfl⟩
  · obtain ⟨v1, hv1, hn1⟩ := h1
    obtain ⟨v2, hv2, hn2⟩ := h2
    simp only [nonMissingOf] at hv1 hv2 ⊢
    have hpos1 : 0 < List.countP isNumeric (values.filter (fun v => !(isMissing v))) :=
      List.countP_pos_iff.mpr ⟨v1, hv1, hn1⟩
    have hpos2 : 0 < List.countP (fun v => !(isNumeric v))
        (values.filter (fun v => !(isMissing v))) :=
      List.countP_pos_iff.mpr ⟨v2, hv2, by simp [hn2]⟩
    unfold profileColumn
    dsimp only
    rw [if_neg (List.ne_nil_of_mem hv1), if_pos ⟨hpos1, hpos2⟩]
    exact ⟨rfl, rfl⟩

/-- Witness for C4: the spec's two concrete columns. -/
theorem c4_type_inference_witness :
    (profileColumn "c" ["10", "20.5", "-3"]).dataType = DataType.number ∧
    (profileColumn "c" ["10", "20.5", "-3"]).missingValues = 0 ∧
    (profileColumn "c" ["10", "20.5", "-3"]).uniqueValues = 3 ∧
    (profileColumn "c" ["10", "abc", ""]).dataType = DataType.mixed ∧
    (profileColumn "c" ["10", "abc", ""]).missingValues = 1 ∧
    (profileColumn "c" ["10", "abc", ""]).nonNumericCount = some 1 :=
  ⟨((c4_type_inference "c" ["10", "20.5", "-3"]).2.1 (by decide) (by decide)).1,
   by decide, by decide,
   ((c4_type_inference "c" ["10", "abc", ""]).2.2.2 (by decide) (by decide)).1,
   by decide, by decide⟩

/-! ## C10 -/

/-- C10 (implicit): the profiler never infers `boolean` — every inferred
`dataType` is `unknown`, `number`, `string` or `mixed`; the literals
`"true"`/`"false"` fail the numeric test, and a column of them is typed
`string`. -/
theorem c10_profiler_never_boolean :
    (∀ (name : String) (values : List String),
      (profileColumn name values).dataType ≠ DataType.boolean) ∧
    isNumeric "true" = false ∧ isNumeric "false" = false ∧
    (profileColumn "flag" ["true", "false"]).dataType = DataType.string := by
  refine ⟨fun name values => ?_, by decide, by decide, by decide⟩
  unfold profileColumn
  dsimp only
  split
  · simp
  · split
    · simp
    · split <;> simp

/-! ## C5 -/

theorem quote_not_mem_cleanCell (s : String) : '"' ∉ (cleanCell s).data := by
  intro hmem
  simp [cleanCell] at hmem

/-- C5 counterexample: the parser does NOT preserve interior double-quotes.
For the CSV text `h\nab"cd` the single data cell parses to `abcd`: the
interior quote of `ab"cd` is deleted, refuting the claim that only
surrounding quotes are stripped. -/
theorem c5_interior_quote_counterexample :
    (parseCsv "h\nab\"cd").rows = [["abcd"]] ∧ ("abcd" : String) ≠ "ab\"cd" := by
  refine ⟨rfl, by decide⟩

/-- C5 amended: the parser splits on newlines, discards lines blank after
trimming, takes the first remaining line as header, splits lines on commas,
and transforms each cell by trimming and then removing EVERY double-quote
character, wherever it appears; consequently no parsed cell contains a
double-quote. -/
theorem c5_csv_cell_cleaning (content : String) (h : String) (rest : List String)
    (hl : (splitLine '\n' content).filter (fun l => decide (jsTrim l ≠ "")) = h :: rest) :
    (parseCsv content).header = (splitLine ',' h).map cleanCell ∧
    (parseCsv content).rows = rest.map (fun l => (splitLine ',' l).map cleanCell) ∧
    (∀ s : String, (cleanCell s).data = (jsTrim s).data.filter (fun ch => decide (ch ≠ '"'))) ∧
    (∀ cell ∈ (parseCsv content).header, '"' ∉ cell.data) ∧
    (∀ row ∈ (parseCsv content).rows, ∀ cell ∈ row, '"' ∉ cell.data) := by
  have hp : parseCsv content =
      ⟨(splitLine ',' h).map cleanCell,
       rest.map (fun l => (splitLine ',' l).map cleanCell)⟩ := by
    unfold parseCsv
    rw [hl]
  rw [hp]
  refine ⟨rfl, rfl, fun s => rfl, ?_, ?_⟩
  · intro cell hcell
    obtain ⟨s, _, rfl⟩ := List.mem_map.mp hcell
    exact quote_not_mem_cleanCell s
  · intro row hrow cell hcell
    obtain ⟨l, _, rfl⟩ := List.mem_map.mp hrow
    obtain ⟨s, _, rfl⟩ := List.mem_map.mp hcell
    exact quote_not_mem_cleanCell s

/-- Witness for the amended C5 at a concrete CSV text. -/
theorem c5_csv_cell_cleaning_witness :
    (parseCsv "h1,h2\n\"x\",2").header = (splitLine ',' "h1,h2").map cleanCell ∧
    (parseCsv "h1,h2\n\"x\",2").rows
      = (["\"x\",2"] : List String).map (fun l => (splitLine ',' l).map cleanCell) ∧
    (∀ s : String,
      (cleanCell s).data = (jsTrim s).data.filter (fun ch => decide (ch ≠ '"'))) ∧
    (∀ cell ∈ (parseCsv "h1,h2\n\"x\",2").header, '"' ∉ cell.data) ∧
    (∀ row ∈ (parseCsv "h1,h2\n\"x\",2").rows, ∀ cell ∈ row, '"' ∉ cell.data) :=
  c5_csv_cell_cleaning "h1,h2\n\"x\",2" "h1,h2" ["\"x\",2"] (by decide)

/-! ## C2 -/

/-- C2 counterexample: applying `CHANGE_TYPE` with target `string` to a
`mixed` column with `nonNumericCount = 5` changes `dataType` away from
`mixed` but leaves `nonNumericCount = 5` — it is neither cleared nor set
to zero, refuting the "whenever dataType is changed away from mixed" part
of the claim. -/
theorem c2_change_type_string_counterexample :
    (applyActionToColumn ⟨"x", DataType.mixed, 2, 3, some 5⟩
        ⟨CleaningActionType.CHANGE_TYPE, "to text", some ⟨none, some TargetType.string⟩⟩).dataType
      = DataType.string ∧
    DataType.string ≠ DataType.mixed ∧
    (applyActionToColumn ⟨"x", DataType.mixed, 2, 3, some 5⟩
        ⟨CleaningActionType.CHANGE_TYPE, "to text", some ⟨none, some TargetType.string⟩⟩).nonNumericCount
      = some 5 ∧
    (some 5 : Option Nat) ≠ none ∧ (some 5 : Option Nat) ≠ some 0 := by
  decide

/-- C2 amended: an applied `CHANGE_TYPE` with a present target sets
`dataType` to the target; if the target is `number` and the column had a
positive `nonNumericCount`, that count is added to `missingValues` and
`nonNumericCount` resets to `0`; but a target of `string` leaves
`nonNumericCount` (and `missingValues`) unchanged — the count is cleared
only on a conversion to `number` with a positive prior count, not whenever
`dataType` moves away from `mixed`. -/
theorem c2_change_type (c : ColumnProfile) (d : String) (v : Option String)
    (tt : TargetType) :
    (applyActionToColumn c
        ⟨CleaningActionType.CHANGE_TYPE, d, some ⟨v, some tt⟩⟩).dataType
      = tt.toDataType ∧
    (∀ n : Nat, tt = TargetType.number → c.nonNumericCount = some n → 0 < n →
      (applyActionToColumn c
          ⟨CleaningActionType.CHANGE_TYPE, d, some ⟨v, some tt⟩⟩).missingValues
        = c.missingValues + n ∧
      (applyActionToColumn c
          ⟨CleaningActionType.CHANGE_TYPE, d, some ⟨v, some tt⟩⟩).nonNumericCount
        = some 0) ∧
    (tt = TargetType.string →
      (applyActionToColumn c
          ⟨CleaningActionType.CHANGE_TYPE, d, some ⟨v, some tt⟩⟩).nonNumericCount
        = c.nonNumericCount ∧
      (applyActionToColumn c
          ⟨CleaningActionType.CHANGE_TYPE, d, some ⟨v, some tt⟩⟩).missingValues
        = c.missingValues) := by
  obtain ⟨nm, dt, mv, uv, nnc⟩ := c
  refine ⟨?_, ?_, ?_⟩
  · cases tt
    · rfl
    · cases nnc with
      | none => rfl
      | some n =>
        by_cases hpos : 0 < n <;>
          simp [applyActionToColumn, TargetType.toDataType, hpos]
  · intro n htt hsome hpos
    cases tt
    · cases htt
    · cases nnc with
      | none => cases hsome
      | some m =>
        obtain rfl : m = n := by injection hsome
        constructor <;> simp [applyActionToColumn, hpos]
  · intro htt
    cases tt
    · exact ⟨rfl, rfl⟩
    · cases htt

/-- Witness for the amended C2: the spec's concrete type-change example
(`mixed`, `nonNumericCount = 5`, `missingValues = 2`, target `number`
gives `number` / `7` / `some 0`) plus a `string`-target instance. -/
theorem c2_change_type_witness :
    (applyActionToColumn ⟨"x", DataType.mixed, 2, 3, some 5⟩
        ⟨CleaningActionType.CHANGE_TYPE, "d", some ⟨none, some TargetType.number⟩⟩).dataType
      = DataType.number ∧
    (applyActionToColumn ⟨"x", DataType.mixed, 2, 3, some 5⟩
        ⟨CleaningActionType.CHANGE_TYPE, "d", some ⟨none, some TargetType.number⟩⟩).missingValues
      = 7 ∧
    (applyActionToColumn ⟨"x", DataType.mixed, 2, 3, some 5⟩
        ⟨CleaningActionType.CHANGE_TYPE, "d", some ⟨none, some TargetType.number⟩⟩).nonNumericCount
      = some 0 ∧
    (applyActionToColumn ⟨"y", DataType.mixed, 2, 3, some 5⟩
        ⟨CleaningActionType.CHANGE_TYPE, "d", some ⟨none, some TargetType.string⟩⟩).nonNumericCount
      = some 5 := by
  refine ⟨(c2_change_type ⟨"x", DataType.mixed, 2, 3, some 5⟩ "d" none TargetType.number).1,
    ?_,
    ((c2_change_type ⟨"x", DataType.mixed, 2, 3, some 5⟩ "d" none
      TargetType.number).2.1 5 rfl rfl (by decide)).2,
    ?_⟩
  · have hm := ((c2_change_type ⟨"x", DataType.mixed, 2, 3, some 5⟩ "d" none
      TargetType.number).2.1 5 rfl rfl (by decide)).1
    simpa using hm
  · exact ((c2_change_type ⟨"y", DataType.mixed, 2, 3, some 5⟩ "d" none
      TargetType.string).2.2 rfl).1.trans rfl

/-! ## C7 -/

theorem find?_upsert_other (m : List (String × AppliedAction)) (k k' : String)
    (v : AppliedAction) (hne : k' ≠ k) :
    (upsertSelection m k v).find? (fun e => decide (e.1 = k'))
      = m.find? (fun e => decide (e.1 = k')) := by
  unfold upsertSelection
  split
  · rename_i hany
    clear hany
    induction m with
    | nil => rfl
    | cons e t ih =>
      by_cases h : e.1 = k
      · rw [List.map_cons, if_pos h,
          List.find?_cons_of_neg _ (by simp [Ne.symm hne]),
          List.find?_cons_of_neg _ (by simp [h, Ne.symm hne]), ih]
      · rw [List.map_cons, if_neg h]
        by_cases hp : e.1 = k'
        · rw [List.find?_cons_of_pos _ (by simp [hp]),
            List.find?_cons_of_pos _ (by simp [hp])]
        · rw [List.find?_cons_of_neg _ (by simp [hp]),
            List.find?_cons_of_neg _ (by simp [hp]), ih]
  · rw [List.find?_append]
    cases hf : m.find? (fun e => decide (e.1 = k')) with
    | some e => rfl
    | none =>
      rw [Option.none_or, List.find?_cons_of_neg _ (by simp [Ne.symm hne])]
      rfl

theorem find?_upsert_self (m : List (String × AppliedAction)) (k : String)
    (v : AppliedAction) :
    (upsertSelection m k v).find? (fun e => decide (e.1 = k)) = some (k, v) := by
  unfold upsertSelection
  split
  · rename_i hany
    induction m with
    | nil => cases hany
    | cons e t ih =>
      by_cases h : e.1 = k
      · rw [List.map_cons, if_pos h, List.find?_cons_of_pos _ (by simp)]
      · rw [List.map_cons, if_neg h, List.find?_cons_of_neg _ (by simp [h])]
        have hany' : t.any (fun e => decide (e.1 = k)) := by
          rcases List.any_eq_true.mp hany with ⟨x, hx, hpx⟩
          rcases List.mem_cons.mp hx with rfl | hxt
          · exact absurd (of_decide_eq_true hpx) h
          · exact List.any_eq_true.mpr ⟨x, hxt, hpx⟩
        exact ih hany'
  · rename_i hany
    rw [List.find?_append]
    have hnone : m.find? (fun e => decide (e.1 = k)) = none := by
      rw [List.find?_eq_none]
      intro e he
      intro hpe
      exact hany (List.any_eq_true.mpr ⟨e, he, hpe⟩)
    rw [hnone, Option.none_or, List.find?_cons_of_pos _ (by simp)]

theorem upsert_keys_map (m : List (String × AppliedAction)) (k : String)
    (v : AppliedAction) (hany : m.any (fun e => decide (e.1 = k))) :
    (upsertSelection m k v).map (fun e => e.1) = m.map (fun e => e.1) := by
  unfold upsertSelection
  rw [if_pos hany, List.map_map]
  refine List.map_congr_left ?_
  intro e _
  by_cases h : e.1 = k <;> simp [h]

/-- C7 counterexample: the staged-selection store is keyed by the string
`file ++ "-" ++ column`, so the DISTINCT pairs ("a-b", "c") and
("a", "b-c") collide on the key "a-b-c": selecting an action for the
second pair overwrites the selection stored for the first, refuting the
claim for arbitrary distinct (file, column) pairs. -/
theorem c7_key_collision_counterexample :
    getSelection (handleActionSelect (handleActionSelect [] "a-b" "c"
        ⟨CleaningActionType.REMOVE_ROWS, "r", none⟩) "a" "b-c"
        ⟨CleaningActionType.FILL_MEAN, "m", none⟩) "a-b" "c"
      ≠ getSelection (handleActionSelect [] "a-b" "c"
        ⟨CleaningActionType.REMOVE_ROWS, "r", none⟩) "a-b" "c" ∧
    (("a-b", "c") : String × String) ≠ (("a", "b-c") : String × String) := by
  decide

/-- C7 amended: for two (file, column) pairs whose composite keys
`file ++ "-" ++ column` differ (in particular whenever file names contain
no hyphen), selecting an action for one pair replaces only that pair's
stored selection and leaves the other pair's selection unchanged; the
newly selected pair maps to the new selection, and keys stay unique, so at
most one selection exists per composite key. -/
theorem c7_selection_replacement (m : List (String × AppliedAction))
    (f1 c1 f2 c2 : String) (s : CleaningSuggestion)
    (hk : selKey f1 c1 ≠ selKey f2 c2) :
    getSelection (handleActionSelect m f2 c2 s) f1 c1 = getSelection m f1 c1 ∧
    getSelection (handleActionSelect m f2 c2 s) f2 c2 = some ⟨f2, c2, s⟩ ∧
    ((m.map (fun e => e.1)).Nodup →
      ((handleActionSelect m f2 c2 s).map (fun e => e.1)).Nodup) := by
  refine ⟨?_, ?_, ?_⟩
  · unfold getSelection handleActionSelect
    rw [find?_upsert_other m (selKey f2 c2) (selKey f1 c1) ⟨f2, c2, s⟩ hk]
  · unfold getSelection handleActionSelect
    rw [find?_upsert_self m (selKey f2 c2) ⟨f2, c2, s⟩]
    rfl
  · intro hnd
    unfold handleActionSelect
    by_cases hany : m.any (fun e => decide (e.1 = selKey f2 c2))
    · rw [upsert_keys_map m (selKey f2 c2) ⟨f2, c2, s⟩ hany]
      exact hnd
    · unfold upsertSelection
      rw [if_neg hany, List.map_append]
      rw [List.nodup_append]
      refine ⟨hnd, List.nodup_singleton _, ?_⟩
      intro a ha hb
      simp only [List.map_cons, List.map_nil, List.mem_singleton] at hb
      subst hb
      rcases List.mem_map.mp ha with ⟨e, he, hke⟩
      exact hany (List.any_eq_true.mpr ⟨e, he, by simp [hke]⟩)

/-- Witness for the amended C7 on a concrete store. -/
theorem c7_selection_replacement_witness :
    getSelection (handleActionSelect
        [("f1-colA", ⟨"f1", "colA", ⟨CleaningActionType.REMOVE_ROWS, "r", none⟩⟩)]
        "f2" "colB" ⟨CleaningActionType.FILL_MODE, "m", none⟩) "f1" "colA"
      = getSelection
        [("f1-colA", ⟨"f1", "colA", ⟨CleaningActionType.REMOVE_ROWS, "r", none⟩⟩)]
        "f1" "colA" ∧
    getSelection (handleActionSelect
        [("f1-colA", ⟨"f1", "colA", ⟨CleaningActionType.REMOVE_ROWS, "r", none⟩⟩)]
        "f2" "colB" ⟨CleaningActionType.FILL_MODE, "m", none⟩) "f2" "colB"
      = some ⟨"f2", "colB", ⟨CleaningActionType.FILL_MODE, "m", none⟩⟩ ∧
    ((([("f1-colA",
        (⟨"f1", "colA", ⟨CleaningActionType.REMOVE_ROWS, "r", none⟩⟩ : AppliedAction))] :
        List (String × AppliedAction)).map (fun e => e.1)).Nodup →
      ((handleActionSelect
        [("f1-colA", ⟨"f1", "colA", ⟨CleaningActionType.REMOVE_ROWS, "r", none⟩⟩)]
        "f2" "colB" ⟨CleaningActionType.FILL_MODE, "m", none⟩).map (fun e => e.1)).Nodup) :=
  c7_selection_replacement
    [("f1-colA", ⟨"f1", "colA", ⟨CleaningActionType.REMOVE_ROWS, "r", none⟩⟩)]
    "f1" "colA" "f2" "colB" ⟨CleaningActionType.FILL_MODE, "m", none⟩ (by decide)

/-! ## C6 -/

theorem countP_flatMap {α β : Type} (f : α → List β) (q : β → Bool) (l : List α) :
    (l.flatMap f).countP q = (l.map (fun x => (f x).countP q)).sum := by
  induction l with
  | nil => rfl
  | cons a t ih => simp [List.flatMap_cons, List.countP_append, ih]

theorem sum_ite_eq_countP {α : Type} (p : α → Prop) [DecidablePred p] (l : List α) :
    (l.map (fun x => if p x then 1 else 0)).sum = l.countP (fun x => decide (p x)) := by
  induction l with
  | nil => rfl
  | cons a t ih => by_cases h : p a <;> simp [h, ih, List.countP_cons, Nat.add_comm]

theorem columnIssues_countP_missing (fn : String) (rc : Nat) (nm : String)
    (c : ColumnProfile) :
    (columnIssues fn rc c).countP
        (fun d => decide (d.columnName = nm ∧ d.issueType = IssueType.missing_values))
      = if c.name = nm ∧ 0 < c.missingValues then 1 else 0 := by
  unfold columnIssues
  by_cases h1 : 0 < c.missingValues <;>
    by_cases h2 : c.dataType = DataType.mixed ∧ hasPosNNC c <;>
    by_cases h3 : c.name = nm <;>
    simp [h1, h2, h3, List.countP_append, List.countP_cons]

theorem columnIssues_countP_mixed (fn : String) (rc : Nat) (nm : String)
    (c : ColumnProfile) :
    (columnIssues fn rc c).countP
        (fun d => decide (d.columnName = nm ∧ d.issueType = IssueType.mixed_type))
      = if c.name = nm ∧ c.dataType = DataType.mixed ∧ hasPosNNC c then 1 else 0 := by
  unfold columnIssues
  by_cases h1 : 0 < c.missingValues <;>
    by_cases h2 : c.dataType = DataType.mixed ∧ hasPosNNC c <;>
    by_cases h3 : c.name = nm <;>
    simp [h1, h2, h3, List.countP_append, List.countP_cons]

theorem mem_columnIssues (fn : String) (rc : Nat) (c : ColumnProfile) (d : ColumnIssue) :
    d ∈ columnIssues fn rc c ↔
      (0 < c.missingValues ∧
        d = ⟨fn, c.name, IssueType.missing_values, some c.missingValues, none, rc⟩) ∨
      ((c.dataType = DataType.mixed ∧ hasPosNNC c) ∧
        d = ⟨fn, c.name, IssueType.mixed_type, none, c.nonNumericCount, rc⟩) := by
  unfold columnIssues
  by_cases h1 : 0 < c.missingValues <;>
    by_cases h2 : c.dataType = DataType.mixed ∧ hasPosNNC c <;>
    simp [h1, h2]

/-- C6: for every file profile and name, the issue list contains exactly
one `missing_values` descriptor per column of that name with
`missingValues > 0` and, independently, exactly one `mixed_type`
descriptor per column of that name with `dataType = mixed` and positive
`nonNumericCount` (so a column qualifying for both yields two descriptors,
and a column whose `dataType` is not `mixed` — e.g. `unknown` for an
all-missing column — is never flagged `mixed_type`); every descriptor
carries the file name, the column name, the relevant count and the
file's total row count; recomputation is definitionally deterministic. -/
theorem c6_issue_detector (fn : String) (p : FileProfile) (nm : String) :
    ((fetchIssuesForFile fn p).countP
        (fun d => decide (d.columnName = nm ∧ d.issueType = IssueType.missing_values))
      = p.columns.countP (fun c => decide (c.name = nm ∧ 0 < c.missingValues))) ∧
    ((fetchIssuesForFile fn p).countP
        (fun d => decide (d.columnName = nm ∧ d.issueType = IssueType.mixed_type))
      = p.columns.countP
          (fun c => decide (c.name = nm ∧ c.dataType = DataType.mixed ∧ hasPosNNC c))) ∧
    (∀ d ∈ fetchIssuesForFile fn p, d.fileName = fn ∧ d.totalRows = p.rowCount) ∧
    (∀ d ∈ fetchIssuesForFile fn p, d.issueType = IssueType.missing_values →
      ∃ c ∈ p.columns, c.name = d.columnName ∧ 0 < c.missingValues ∧
        d.missingCount = some c.missingValues) ∧
    (∀ d ∈ fetchIssuesForFile fn p, d.issueType = IssueType.mixed_type →
      ∃ c ∈ p.columns, c.name = d.columnName ∧ c.dataType = DataType.mixed ∧
        hasPosNNC c = true ∧ d.nonNumericCount = c.nonNumericCount) ∧
    fetchIssuesForFile fn p = fetchIssuesForFile fn p := by
  refine ⟨?_, ?_, ?_, ?_, ?_, rfl⟩
  · rw [fetchIssuesForFile, countP_flatMap]
    have hmap : p.columns.map
        (fun c => (columnIssues fn p.rowCount c).countP
          (fun d => decide (d.columnName = nm ∧ d.issueType = IssueType.missing_values)))
        = p.columns.map (fun c => if c.name = nm ∧ 0 < c.missingValues then 1 else 0) := by
      refine List.map_congr_left ?_
      intro c _
      exact columnIssues_countP_missing fn p.rowCount nm c
    rw [hmap, sum_ite_eq_countP]
  · rw [fetchIssuesForFile, countP_flatMap]
    have hmap : p.columns.map
        (fun c => (columnIssues fn p.rowCount c).countP
          (fun d => decide (d.columnName = nm ∧ d.issueType = IssueType.mixed_type)))
        = p.columns.map
          (fun c => if c.name = nm ∧ c.dataType = DataType.mixed ∧ hasPosNNC c then 1 else 0) := by
      refine List.map_congr_left ?_
      intro c _
      exact columnIssues_countP_mixed fn p.rowCount nm c
    rw [hmap, sum_ite_eq_countP]
  · intro d hd
    rcases List.mem_flatMap.mp hd with ⟨c, _, hdc⟩
    rcases (mem_columnIssues fn p.rowCount c d).mp hdc with ⟨_, rfl⟩ | ⟨_, rfl⟩ <;>
      exact ⟨rfl, rfl⟩
  · intro d hd hmiss
    rcases List.mem_flatMap.mp hd with ⟨c, hc, hdc⟩
    rcases (mem_columnIssues fn p.rowCount c d).mp hdc with ⟨hpos, rfl⟩ | ⟨hq, rfl⟩
    · exact ⟨c, hc, rfl, hpos, rfl⟩
    · cases hmiss
  · intro d hd hmix
    rcases List.mem_flatMap.mp hd with ⟨c, hc, hdc⟩
    rcases (mem_columnIssues fn p.rowCount c d).mp hdc with ⟨hpos, rfl⟩ | ⟨hq, rfl⟩
    · cases hmix
    · exact ⟨c, hc, rfl, hq.1, hq.2, rfl⟩

/-- Witness for C6 at a concrete profile (one column qualifying for both
issue kinds yields one descriptor of each). -/
theorem c6_issue_detector_witness :
    ((fetchIssuesForFile "f" ⟨3, 1, [⟨"A", DataType.mixed, 1, 2, some 1⟩]⟩).countP
        (fun d => decide (d.columnName = "A" ∧ d.issueType = IssueType.missing_values))
      = 1) ∧
    ((fetchIssuesForFile "f" ⟨3, 1, [⟨"A", DataType.mixed, 1, 2, some 1⟩]⟩).countP
        (fun d => decide (d.columnName = "A" ∧ d.issueType = IssueType.mixed_type))
      = 1) :=
  ⟨((c6_issue_detector "f" ⟨3, 1, [⟨"A", DataType.mixed, 1, 2, some 1⟩]⟩ "A").1).trans
      (by decide),
   ((c6_issue_detector "f" ⟨3, 1, [⟨"A", DataType.mixed, 1, 2, some 1⟩]⟩ "A").2.1).trans
      (by decide)⟩

/-! ## C1 -/

/-- The claim-side candidate list for "rows removed": for each
`REMOVE_ROWS` selection that addresses a column present in `cols`, the
addressed column's (pre-action) `missingValues`. -/
def removalCandidates (cols : List ColumnProfile) (actions : List AppliedAction) :
    List Nat :=
  actions.filterMap (fun a =>
    if a.suggestion.action = CleaningActionType.REMOVE_ROWS then
      (findColumn cols a.column).map (fun c => c.missingValues)
    else none)

/-- The `R` of the claim: the maximum pre-action `missingValues` over all
`REMOVE_ROWS` selections addressing present columns (0 when none). -/
def specRowsRemoved (p : FileProfile) (actions : List AppliedAction) : Nat :=
  (removalCandidates p.columns actions).foldl max 0

theorem applyActionToColumn_name (c : ColumnProfile) (s : CleaningSuggestion) :
    (applyActionToColumn c s).name = c.name := by
  unfold applyActionToColumn
  repeat first | rfl | split

theorem updateColumn_map_name (cols : List ColumnProfile) (nm : String)
    (f : ColumnProfile → ColumnProfile) (hf : ∀ c, (f c).name = c.name) :
    (updateColumn cols nm f).map (fun c => c.name) = cols.map (fun c => c.name) := by
  induction cols with
  | nil => rfl
  | cons c rest ih =>
    unfold updateColumn
    by_cases h : c.name = nm <;> simp [h, hf, ih]

theorem findColumn_updateColumn (nm nm' : String) (f : ColumnProfile → ColumnProfile)
    (hf : ∀ c, (f c).name = c.name) (cols : List ColumnProfile) :
    findColumn (updateColumn cols nm f) nm' =
      if nm' = nm then (findColumn cols nm).map f else findColumn cols nm' := by
  induction cols with
  | nil =>
    simp only [updateColumn, findColumn, List.find?_nil]
    split <;> rfl
  | cons c rest ih =>
    unfold updateColumn
    by_cases h : c.name = nm
    · rw [if_pos h]
      by_cases h' : nm' = nm
      · subst h'
        rw [if_pos rfl]
        unfold findColumn
        rw [List.find?_cons_of_pos _ (by simp [hf c, h]),
          List.find?_cons_of_pos _ (by simp [h]), Option.map_some']
      · rw [if_neg h']
        unfold findColumn
        rw [List.find?_cons_of_neg _ (by simp [hf c, h, Ne.symm h']),
          List.find?_cons_of_neg _ (by simp [h, Ne.symm h'])]
    · rw [if_neg h]
      by_cases h' : nm' = nm
      · subst h'
        rw [if_pos rfl]
        unfold findColumn
        rw [List.find?_cons_of_neg _ (by simp [h]),
          List.find?_cons_of_neg _ (by simp [h])]
        have hih := ih
        rw [if_pos rfl] at hih
        exact hih
      · rw [if_neg h']
        by_cases hp : c.name = nm'
        · unfold findColumn
          rw [List.find?_cons_of_pos _ (by simp [hp]),
            List.find?_cons_of_pos _ (by simp [hp])]
        · unfold findColumn
          rw [List.find?_cons_of_neg _ (by simp [hp]),
            List.find?_cons_of_neg _ (by simp [hp])]
          have hih := ih
          rw [if_neg h'] at hih
          exact hih

theorem findColumn_map (φ : ColumnProfile → ColumnProfile)
    (hφ : ∀ c, (φ c).name = c.name) (l : List ColumnProfile) (nm : String) :
    findColumn (l.map φ) nm = (findColumn l nm).map φ := by
  induction l with
  | nil => rfl
  | cons c rest ih =>
    by_cases h : c.name = nm
    · unfold findColumn
      rw [List.map_cons, List.find?_cons_of_pos _ (by simp [hφ c, h]),
        List.find?_cons_of_pos _ (by simp [h]), Option.map_some']
    · unfold findColumn
      rw [List.map_cons, List.find?_cons_of_neg _ (by simp [hφ c, h]),
        List.find?_cons_of_neg _ (by simp [h])]
      exact ih

theorem jsRound_zero_num (b : Nat) (hb : 0 < b) : jsRound 0 b = 0 := by
  unfold jsRound
  have h1 : 2 * 0 + b = b := by omega
  rw [h1]
  exact Nat.div_eq_of_lt (by omega)

theorem fold_applyOneAction_char (actions : List AppliedAction) :
    ∀ (cols : List ColumnProfile) (r : Nat),
      (actions.map (fun b => b.column)).Nodup →
      ((actions.foldl applyOneAction (cols, r)).1.map (fun c => c.name)
          = cols.map (fun c => c.name)) ∧
      (∀ nm, findColumn (actions.foldl applyOneAction (cols, r)).1 nm =
        (match actions.find? (fun b => decide (b.column = nm)) with
         | some b => (findColumn cols nm).map (fun c0 => applyActionToColumn c0 b.suggestion)
         | none => findColumn cols nm)) ∧
      ((actions.foldl applyOneAction (cols, r)).2
        = (removalCandidates cols actions).foldl max r) := by
  induction actions with
  | nil =>
    intro cols r _
    exact ⟨rfl, fun nm => rfl, rfl⟩
  | cons a rest ih =>
    intro cols r hnd
    rw [List.map_cons] at hnd
    have hnotin := (List.nodup_cons.mp hnd).1
    have hnd' := (List.nodup_cons.mp hnd).2
    have hrest_none : ∀ nm, a.column = nm →
        rest.find? (fun b => decide (b.column = nm)) = none := by
      intro nm hanm
      rw [List.find?_eq_none]
      intro b hb hpb
      exact hnotin (List.mem_map.mpr ⟨b, hb, (of_decide_eq_true hpb).trans hanm.symm⟩)
    rw [List.foldl_cons]
    cases hfc : findColumn cols a.column with
    | none =>
      have hstep : applyOneAction (cols, r) a = (cols, r) := by
        unfold applyOneAction
        rw [hfc]
      rw [hstep]
      obtain ⟨ih1, ih2, ih3⟩ := ih cols r hnd'
      refine ⟨ih1, fun nm => ?_, ?_⟩
      · rw [ih2 nm]
        by_cases hnm : a.column = nm
        · subst hnm
          rw [hrest_none a.column rfl, List.find?_cons_of_pos _ (by simp), hfc]
          rfl
        · rw [List.find?_cons_of_neg _ (by simp [hnm])]
      · rw [ih3]
        unfold removalCandidates
        rw [List.filterMap_cons]
        by_cases ha : a.suggestion.action = CleaningActionType.REMOVE_ROWS
        · simp [ha, hfc]
        · simp [ha]
    | some c =>
      have hstep : applyOneAction (cols, r) a =
          (updateColumn cols a.column (fun c0 => applyActionToColumn c0 a.suggestion),
           if a.suggestion.action = CleaningActionType.REMOVE_ROWS
           then max r c.missingValues else r) := by
        unfold applyOneAction
        rw [hfc]
      rw [hstep]
      obtain ⟨ih1, ih2, ih3⟩ := ih (updateColumn cols a.column
          (fun c0 => applyActionToColumn c0 a.suggestion))
        (if a.suggestion.action = CleaningActionType.REMOVE_ROWS
         then max r c.missingValues else r) hnd'
      have hname : ∀ c0, (applyActionToColumn c0 a.suggestion).name = c0.name :=
        fun c0 => applyActionToColumn_name c0 a.suggestion
      refine ⟨?_, fun nm => ?_, ?_⟩
      · rw [ih1, updateColumn_map_name cols a.column _ hname]
      · rw [ih2 nm]
        by_cases hnm : a.column = nm
        · subst hnm
          rw [hrest_none a.column rfl, List.find?_cons_of_pos _ (by simp),
            findColumn_updateColumn a.column a.column _ hname cols, if_pos rfl]
        · rw [List.find?_cons_of_neg _ (by simp [hnm]),
            findColumn_updateColumn a.column nm _ hname cols,
            if_neg (fun hh => hnm hh.symm)]
      · rw [ih3]
        have hcand : removalCandidates (updateColumn cols a.column
              (fun c0 => applyActionToColumn c0 a.suggestion)) rest
            = removalCandidates cols rest := by
          unfold removalCandidates
          refine List.filterMap_congr ?_
          intro b hb
          by_cases hbact : b.suggestion.action = CleaningActionType.REMOVE_ROWS
          · rw [if_pos hbact, if_pos hbact,
              findColumn_updateColumn a.column b.column _ hname cols,
              if_neg (fun hh => hnotin (List.mem_map.mpr ⟨b, hb, hh⟩))]
          · rw [if_neg hbact, if_neg hbact]
        rw [hcand]
        unfold removalCandidates
        rw [List.filterMap_cons]
        by_cases ha : a.suggestion.action = CleaningActionType.REMOVE_ROWS
        · simp [ha, hfc]
        · simp [ha, hfc]

theorem propagate_name (actions : List AppliedAction) (R rc : Nat) (c0 : ColumnProfile) :
    ((if actions.any (isRemoveRowsFor c0.name) then c0
      else { c0 with missingValues :=
        c0.missingValues - jsRound (c0.missingValues * R) rc }) : ColumnProfile).name
      = c0.name := by
  by_cases hb : actions.any (isRemoveRowsFor c0.name) <;> simp [hb]

theorem applyActionToColumn_remove (c : ColumnProfile) (s : CleaningSuggestion)
    (h : s.action = CleaningActionType.REMOVE_ROWS) :
    (applyActionToColumn c s).missingValues = 0 := by
  obtain ⟨act, d, ps⟩ := s
  cases act <;> first | rfl | cases h

theorem findColumn_name {cols : List ColumnProfile} {nm : String} {c : ColumnProfile}
    (h : findColumn cols nm = some c) : c.name = nm := by
  unfold findColumn at h
  exact of_decide_eq_true (List.find?_some (p := fun c0 : ColumnProfile => decide (c0.name = nm)) h)

/-- C1: for a batch with at most one selection per column, on a profile
with a positive row count, applying the batch subtracts from `rowCount`
(floored at 0 by `Nat` subtraction) exactly `R` — the maximum over the
`REMOVE_ROWS` selections addressing present columns of the addressed
column's pre-action `missingValues` (`specRowsRemoved`); every present
column with no selection at all has its `missingValues` reduced by
`round(missingValues * R / original rowCount)` (floored at 0); a column
whose selection is a non-`REMOVE_ROWS` action is first transformed by its
own per-column action and then reduced by the same rounded proportional
formula applied to its post-action `missingValues`; a column selected
`REMOVE_ROWS` ends with `missingValues = 0`. -/
theorem c1_remove_rows_propagation (p : FileProfile) (actions : List AppliedAction)
    (hnd : (actions.map (fun b => b.column)).Nodup) (hrc : 0 < p.rowCount) :
    ((applyFileActions p actions).rowCount = p.rowCount - specRowsRemoved p actions) ∧
    (∀ nm c, findColumn p.columns nm = some c →
      actions.find? (fun b => decide (b.column = nm)) = none →
      findColumn (applyFileActions p actions).columns nm = some
        { c with missingValues := c.missingValues
            - jsRound (c.missingValues * specRowsRemoved p actions) p.rowCount }) ∧
    (∀ nm c b, findColumn p.columns nm = some c →
      actions.find? (fun b0 => decide (b0.column = nm)) = some b →
      b.suggestion.action ≠ CleaningActionType.REMOVE_ROWS →
      findColumn (applyFileActions p actions).columns nm = some
        { (applyActionToColumn c b.suggestion) with missingValues :=
            ((applyActionToColumn c b.suggestion).missingValues
              - jsRound ((applyActionToColumn c b.suggestion).missingValues
                  * specRowsRemoved p actions) p.rowCount) }) ∧
    (∀ nm c b, findColumn p.columns nm = some c →
      actions.find? (fun b0 => decide (b0.column = nm)) = some b →
      b.suggestion.action = CleaningActionType.REMOVE_ROWS →
      findColumn (applyFileActions p actions).columns nm
          = some (applyActionToColumn c b.suggestion) ∧
      (applyActionToColumn c b.suggestion).missingValues = 0) := by
  obtain ⟨h1, h2, h3⟩ := fold_applyOneAction_char actions p.columns 0 hnd
  have hspec : (actions.foldl applyOneAction (p.columns, 0)).2
      = specRowsRemoved p actions := h3
  by_cases hpos : 0 < (actions.foldl applyOneAction (p.columns, 0)).2
  · have happly : applyFileActions p actions =
        { p with
          rowCount := p.rowCount - (actions.foldl applyOneAction (p.columns, 0)).2
          columns := (actions.foldl applyOneAction (p.columns, 0)).1.map (fun col =>
            if actions.any (isRemoveRowsFor col.name) then col
            else { col with missingValues :=
              (col.missingValues - jsRound
                (col.missingValues * (actions.foldl applyOneAction (p.columns, 0)).2)
                p.rowCount) }) } := by
      unfold applyFileActions
      dsimp only
      rw [if_pos hpos]
    refine ⟨?_, ?_, ?_, ?_⟩
    · rw [happly]
      dsimp only
      rw [hspec]
    · intro nm c hfc hfind
      have hcn : c.name = nm := findColumn_name hfc
      have hany : actions.any (isRemoveRowsFor nm) = false := by
        rw [List.any_eq_false]
        intro x hx
        simp only [isRemoveRowsFor, Bool.and_eq_true, decide_eq_true_eq, not_and]
        intro hxcol _
        exact absurd (by simp [hxcol] : (decide (x.column = nm)) = true)
          (List.find?_eq_none.mp hfind x hx)
      rw [happly]
      dsimp only
      rw [findColumn_map _ (fun c0 => propagate_name actions
          ((actions.foldl applyOneAction (p.columns, 0)).2) p.rowCount c0),
        h2 nm, hfind, hfc]
      have hite : actions.any (isRemoveRowsFor nm) ≠ true := by
        rw [hany]
        exact Bool.false_ne_true
      simp only [Option.map_some', hcn, if_neg hite, hspec]
    · intro nm c b hfc hfind hbact
      have hcn : c.name = nm := findColumn_name hfc
      have hbcol : b.column = nm :=
        of_decide_eq_true (List.find?_some (p := fun b0 : AppliedAction => decide (b0.column = nm)) hfind)
      have hbmem : b ∈ actions := List.mem_of_find?_eq_some hfind
      have hany : actions.any (isRemoveRowsFor nm) = false := by
        rw [List.any_eq_false]
        intro x hx
        simp only [isRemoveRowsFor, Bool.and_eq_true, decide_eq_true_eq, not_and]
        intro hxcol hxact
        have hxb : x = b :=
          List.inj_on_of_nodup_map hnd hx hbmem (hxcol.trans hbcol.symm)
        exact hbact (hxb ▸ hxact)
      rw [happly]
      dsimp only
      rw [findColumn_map _ (fun c0 => propagate_name actions
          ((actions.foldl applyOneAction (p.columns, 0)).2) p.rowCount c0),
        h2 nm, hfind, hfc]
      have hgn : (applyActionToColumn c b.suggestion).name = nm :=
        (applyActionToColumn_name c b.suggestion).trans hcn
      have hite : actions.any (isRemoveRowsFor nm) ≠ true := by
        rw [hany]
        exact Bool.false_ne_true
      simp only [Option.map_some', hgn, if_neg hite, hspec]
    · intro nm c b hfc hfind hbact
      have hcn : c.name = nm := findColumn_name hfc
      have hbcol : b.column = nm :=
        of_decide_eq_true (List.find?_some (p := fun b0 : AppliedAction => decide (b0.column = nm)) hfind)
      have hbmem : b ∈ actions := List.mem_of_find?_eq_some hfind
      have hany : actions.any (isRemoveRowsFor nm) = true :=
        List.any_eq_true.mpr ⟨b, hbmem, by simp [isRemoveRowsFor, hbcol, hbact]⟩
      refine ⟨?_, applyActionToColumn_remove c b.suggestion hbact⟩
      rw [happly]
      dsimp only
      rw [findColumn_map _ (fun c0 => propagate_name actions
          ((actions.foldl applyOneAction (p.columns, 0)).2) p.rowCount c0),
        h2 nm, hfind, hfc]
      have hgn : (applyActionToColumn c b.suggestion).name = nm :=
        (applyActionToColumn_name c b.suggestion).trans hcn
      simp only [Option.map_some', hgn, if_pos hany]
  · have hz : (actions.foldl applyOneAction (p.columns, 0)).2 = 0 :=
      Nat.eq_zero_of_not_pos hpos
    have hR : specRowsRemoved p actions = 0 := hspec.symm.trans hz
    have happly : applyFileActions p actions =
        { p with columns := (actions.foldl applyOneAction (p.columns, 0)).1 } := by
      unfold applyFileActions
      dsimp only
      rw [if_neg hpos]
    have hjr : ∀ m : Nat, m - jsRound (m * specRowsRemoved p actions) p.rowCount = m := by
      intro m
      rw [hR, Nat.mul_zero, jsRound_zero_num p.rowCount hrc, Nat.sub_zero]
    refine ⟨?_, ?_, ?_, ?_⟩
    · rw [happly]
      dsimp only
      rw [hR, Nat.sub_zero]
    · intro nm c hfc hfind
      rw [happly]
      dsimp only
      rw [h2 nm, hfind, hfc, hjr c.missingValues]
    · intro nm c b hfc hfind hbact
      rw [happly]
      dsimp only
      rw [h2 nm, hfind, hfc, hjr (applyActionToColumn c b.suggestion).missingValues]
      rfl
    · intro nm c b hfc hfind hbact
      refine ⟨?_, applyActionToColumn_remove c b.suggestion hbact⟩
      rw [happly]
      dsimp only
      rw [h2 nm, hfind, hfc]
      rfl

/-- Witness for C1: the spec's proportional-propagation example —
`rowCount = 100`, column A `missingValues = 10` selected `REMOVE_ROWS`,
column B `missingValues = 20` unselected, gives `rowCount = 90`,
A `missingValues = 0`, B `missingValues = 18`, with `R = 10`. -/
theorem c1_remove_rows_propagation_witness :
    (applyFileActions
        ⟨100, 2, [⟨"A", DataType.number, 10, 5, none⟩, ⟨"B", DataType.number, 20, 5, none⟩]⟩
        [⟨"f", "A", ⟨CleaningActionType.REMOVE_ROWS, "r", none⟩⟩]).rowCount = 90 ∧
    findColumn (applyFileActions
        ⟨100, 2, [⟨"A", DataType.number, 10, 5, none⟩, ⟨"B", DataType.number, 20, 5, none⟩]⟩
        [⟨"f", "A", ⟨CleaningActionType.REMOVE_ROWS, "r", none⟩⟩]).columns "B"
      = some ⟨"B", DataType.number, 18, 5, none⟩ ∧
    findColumn (applyFileActions
        ⟨100, 2, [⟨"A", DataType.number, 10, 5, none⟩, ⟨"B", DataType.number, 20, 5, none⟩]⟩
        [⟨"f", "A", ⟨CleaningActionType.REMOVE_ROWS, "r", none⟩⟩]).columns "A"
      = some ⟨"A", DataType.number, 0, 5, none⟩ ∧
    specRowsRemoved
        ⟨100, 2, [⟨"A", DataType.number, 10, 5, none⟩, ⟨"B", DataType.number, 20, 5, none⟩]⟩
        [⟨"f", "A", ⟨CleaningActionType.REMOVE_ROWS, "r", none⟩⟩] = 10 :=
  ⟨((c1_remove_rows_propagation
      ⟨100, 2, [⟨"A", DataType.number, 10, 5, none⟩, ⟨"B", DataType.number, 20, 5, none⟩]⟩
      [⟨"f", "A", ⟨CleaningActionType.REMOVE_ROWS, "r", none⟩⟩]
      (by decide) (by decide)).1).trans (by decide),
   ((c1_remove_rows_propagation
      ⟨100, 2, [⟨"A", DataType.number, 10, 5, none⟩, ⟨"B", DataType.number, 20, 5, none⟩]⟩
      [⟨"f", "A", ⟨CleaningActionType.REMOVE_ROWS, "r", none⟩⟩]
      (by decide) (by decide)).2.1 "B" ⟨"B", DataType.number, 20, 5, none⟩
      (by decide) (by decide)).trans (by decide),
   (((c1_remove_rows_propagation
      ⟨100, 2, [⟨"A", DataType.number, 10, 5, none⟩, ⟨"B", DataType.number, 20, 5, none⟩]⟩
      [⟨"f", "A", ⟨CleaningActionType.REMOVE_ROWS, "r", none⟩⟩]
      (by decide) (by decide)).2.2.2 "A" ⟨"A", DataType.number, 10, 5, none⟩
      ⟨"f", "A", ⟨CleaningActionType.REMOVE_ROWS, "r", none⟩⟩
      (by decide) (by decide) rfl).1).trans (by decide),
   by decide⟩

/-! ## C8 -/

theorem applyFileActions_nil (p : FileProfile) : applyFileActions p [] = p := rfl

/-- C8: the apply step is a pure whole-map replacement: it never errors,
the set of file keys is unchanged, and every file with no staged selection
keeps a profile equal to its input profile (the input map itself is a pure
value and is never mutated — the source enforces this with a deep copy). -/
theorem c8_apply_whole_map_replacement (profiles : List (String × FileProfile))
    (sels : List AppliedAction) (fn : String)
    (h : ∀ a ∈ sels, a.file ≠ fn) :
    lookupProfile (applyChanges profiles sels) fn = lookupProfile profiles fn ∧
    (applyChanges profiles sels).map (fun e => e.1) = profiles.map (fun e => e.1) := by
  constructor
  · induction profiles with
    | nil => rfl
    | cons e rest ih =>
      unfold applyChanges lookupProfile
      by_cases he : e.1 = fn
      · rw [List.map_cons, List.find?_cons_of_pos _ (by simp [he]),
          List.find?_cons_of_pos _ (by simp [he])]
        have hnil : sels.filter (fun a => decide (a.file = e.1)) = [] := by
          rw [List.filter_eq_nil_iff]
          intro a ha
          simp [he, h a ha]
        rw [hnil, applyFileActions_nil]
      · rw [List.map_cons, List.find?_cons_of_neg _ (by simp [he]),
          List.find?_cons_of_neg _ (by simp [he])]
        exact ih
  · unfold applyChanges
    rw [List.map_map]
    rfl

/-- Witness for C8 on a concrete two-file map with a selection on the
other file only. -/
theorem c8_apply_whole_map_replacement_witness :
    lookupProfile (applyChanges
        [("f1", ⟨3, 1, [⟨"A", DataType.number, 1, 2, none⟩]⟩),
         ("f2", ⟨4, 1, [⟨"B", DataType.number, 2, 2, none⟩]⟩)]
        [⟨"f2", "B", ⟨CleaningActionType.REMOVE_ROWS, "r", none⟩⟩]) "f1"
      = lookupProfile
        [("f1", ⟨3, 1, [⟨"A", DataType.number, 1, 2, none⟩]⟩),
         ("f2", ⟨4, 1, [⟨"B", DataType.number, 2, 2, none⟩]⟩)] "f1" ∧
    (applyChanges
        [("f1", ⟨3, 1, [⟨"A", DataType.number, 1, 2, none⟩]⟩),
         ("f2", ⟨4, 1, [⟨"B", DataType.number, 2, 2, none⟩]⟩)]
        [⟨"f2", "B", ⟨CleaningActionType.REMOVE_ROWS, "r", none⟩⟩]).map (fun e => e.1)
      = ([("f1", ⟨3, 1, [⟨"A", DataType.number, 1, 2, none⟩]⟩),
         ("f2", ⟨4, 1, [⟨"B", DataType.number, 2, 2, none⟩]⟩)] :
          List (String × FileProfile)).map (fun e => e.1) :=
  c8_apply_whole_map_replacement
    [("f1", ⟨3, 1, [⟨"A", DataType.number, 1, 2, none⟩]⟩),
     ("f2", ⟨4, 1, [⟨"B", DataType.number, 2, 2, none⟩]⟩)]
    [⟨"f2", "B", ⟨CleaningActionType.REMOVE_ROWS, "r", none⟩⟩] "f1" (by decide)

/-! ## C9 -/

theorem fold_preserves_names (actions : List AppliedAction) :
    ∀ st : List ColumnProfile × Nat,
      (actions.foldl applyOneAction st).1.map (fun c => c.name)
        = st.1.map (fun c => c.name) := by
  induction actions with
  | nil => intro st; rfl
  | cons a rest ih =>
    intro st
    rw [List.foldl_cons, ih (applyOneAction st a)]
    unfold applyOneAction
    cases hfc : findColumn st.1 a.column with
    | none => rfl
    | some c =>
      exact updateColumn_map_name st.1 a.column _
        (fun c0 => applyActionToColumn_name c0 a.suggestion)

theorem findColumn_eq_none (cols : List ColumnProfile) (nm : String) :
    findColumn cols nm = none ↔ nm ∉ cols.map (fun c => c.name) := by
  unfold findColumn
  rw [List.find?_eq_none]
  constructor
  · intro h hmem
    rcases List.mem_map.mp hmem with ⟨c, hc, hcn⟩
    exact h c hc (by simp [hcn])
  · intro h c hc hpc
    exact h (List.mem_map.mpr ⟨c, hc, of_decide_eq_true hpc⟩)

theorem applyOneAction_of_none {st : List ColumnProfile × Nat} {a : AppliedAction}
    (h : findColumn st.1 a.column = none) : applyOneAction st a = st := by
  unfold applyOneAction
  rw [h]

theorem applyFileActions_skip (p : FileProfile) (l1 l2 : List AppliedAction)
    (a : AppliedAction) (hnone : findColumn p.columns a.column = none) :
    applyFileActions p (l1 ++ a :: l2) = applyFileActions p (l1 ++ l2) := by
  have hfold : (l1 ++ a :: l2).foldl applyOneAction (p.columns, 0)
      = (l1 ++ l2).foldl applyOneAction (p.columns, 0) := by
    rw [List.foldl_append, List.foldl_append, List.foldl_cons]
    have hnone' : findColumn (l1.foldl applyOneAction (p.columns, 0)).1 a.column
        = none := by
      rw [findColumn_eq_none, fold_preserves_names l1 (p.columns, 0)]
      exact (findColumn_eq_none p.columns a.column).mp hnone
    rw [applyOneAction_of_none hnone']
  unfold applyFileActions
  dsimp only
  rw [hfold]
  by_cases hpos : 0 < ((l1 ++ l2).foldl applyOneAction (p.columns, 0)).2
  · rw [if_pos hpos, if_pos hpos]
    have hcols : ((l1 ++ l2).foldl applyOneAction (p.columns, 0)).1.map (fun col =>
          if (l1 ++ a :: l2).any (isRemoveRowsFor col.name) then col
          else { col with missingValues :=
            (col.missingValues - jsRound
              (col.missingValues * ((l1 ++ l2).foldl applyOneAction (p.columns, 0)).2)
              p.rowCount) })
        = ((l1 ++ l2).foldl applyOneAction (p.columns, 0)).1.map (fun col =>
          if (l1 ++ l2).any (isRemoveRowsFor col.name) then col
          else { col with missingValues :=
            (col.missingValues - jsRound
              (col.missingValues * ((l1 ++ l2).foldl applyOneAction (p.columns, 0)).2)
              p.rowCount) }) := by
      refine List.map_congr_left ?_
      intro col hcol
      have hcolname : col.name ∈ p.columns.map (fun c => c.name) := by
        rw [← fold_preserves_names (l1 ++ l2) (p.columns, 0)]
        exact List.mem_map.mpr ⟨col, hcol, rfl⟩
      have hne : a.column ≠ col.name := by
        intro hh
        exact ((findColumn_eq_none p.columns a.column).mp hnone) (hh ▸ hcolname)
      have hq : isRemoveRowsFor col.name a = false := by
        unfold isRemoveRowsFor
        rw [decide_eq_false hne, Bool.false_and]
      have hany : (l1 ++ a :: l2).any (isRemoveRowsFor col.name)
          = (l1 ++ l2).any (isRemoveRowsFor col.name) := by
        simp [List.any_append, List.any_cons, hq]
      rw [hany]
    rw [hcols]
  · rw [if_neg hpos, if_neg hpos]

/-- C9: a staged selection whose file is absent from the profile map, or
whose column is absent from its file's profile, is silently dropped by the
apply step: removing it from the selection list leaves the resulting
profile map unchanged (and in particular it contributes nothing to the
rows-removed maximum and raises no error — the apply step is total). -/
theorem c9_stale_selection_ignored (profiles : List (String × FileProfile))
    (pre post : List AppliedAction) (a : AppliedAction)
    (hstale : ∀ e ∈ profiles, e.1 = a.file → ∀ c ∈ e.2.columns, c.name ≠ a.column) :
    applyChanges profiles (pre ++ a :: post) = applyChanges profiles (pre ++ post) := by
  unfold applyChanges
  refine List.map_congr_left ?_
  intro e he
  by_cases hf : a.file = e.1
  · have hfil : (pre ++ a :: post).filter (fun b => decide (b.file = e.1))
        = pre.filter (fun b => decide (b.file = e.1))
          ++ a :: post.filter (fun b => decide (b.file = e.1)) := by
      simp [List.filter_append, List.filter_cons, hf]
    have hnotcol : findColumn e.2.columns a.column = none := by
      unfold findColumn
      rw [List.find?_eq_none]
      intro c hc hpc
      exact hstale e he hf.symm c hc (of_decide_eq_true hpc)
    rw [hfil, applyFileActions_skip e.2 _ _ a hnotcol, List.filter_append]
  · have hfil : (pre ++ a :: post).filter (fun b => decide (b.file = e.1))
        = (pre ++ post).filter (fun b => decide (b.file = e.1)) := by
      simp [List.filter_append, List.filter_cons, hf]
    rw [hfil]

/-- Witness for C9: a selection naming a column absent from the profile is
dropped without changing the result. -/
theorem c9_stale_selection_ignored_witness :
    applyChanges [("f", ⟨3, 1, [⟨"A", DataType.number, 1, 2, none⟩]⟩)]
        ([] ++ (⟨"f", "ZZZ", ⟨CleaningActionType.REMOVE_ROWS, "r", none⟩⟩ : AppliedAction)
          :: [⟨"f", "A", ⟨CleaningActionType.FILL_MEAN, "m", none⟩⟩])
      = applyChanges [("f", ⟨3, 1, [⟨"A", DataType.number, 1, 2, none⟩]⟩)]
        ([] ++ [⟨"f", "A", ⟨CleaningActionType.FILL_MEAN, "m", none⟩⟩]) :=
  c9_stale_selection_ignored
    [("f", ⟨3, 1, [⟨"A", DataType.number, 1, 2, none⟩]⟩)]
    [] [⟨"f", "A", ⟨CleaningActionType.FILL_MEAN, "m", none⟩⟩]
    ⟨"f", "ZZZ", ⟨CleaningActionType.REMOVE_ROWS, "r", none⟩⟩ (by decide)
